import Mathlib

/-!
Verification of the product-listing API route
(`app/routes/($locale).api.products.tsx`) of the hydrogen-demo-store
repository.

The loader of that route is embedded shallowly:

* URL query strings and `URLSearchParams` are modelled by `parseSearch` /
  `spGet` (first-match lookup, `application/x-www-form-urlencoded`
  decoding restricted to the ASCII fragment the route can see);
* JavaScript numbers produced by `parseInt` are modelled by `JSNum`
  (an exact integer or `NaN`); `jsParseInt` follows the ECMAScript
  `parseInt(string)` algorithm with an unspecified radix: leading
  whitespace is skipped, an optional sign is read, a `0x`/`0X` prefix
  switches to hexadecimal, and the longest prefix of radix digits is
  converted, yielding `NaN` when that prefix is empty;
* the parameter-normalization block of the loader (lines 19-41 of the
  source) is `queryParams`;
* the storefront client is an oracle `StorefrontVars → Option (ProductConnection P)`;
  `loaderRun` returns the list of outbound calls made together with the
  loader's result, where a `none` connection triggers the
  `invariant(products, ...)` failure of the source.
-/

/-- A JavaScript number as far as this route can observe it: an exact
integer or `NaN` (the route only ever produces integers or `NaN` via
`parseInt`). -/
inductive JSNum where
  | int : Int → JSNum
  | nan : JSNum
deriving DecidableEq, Repr

/-- Value of a character as a digit in the given radix, per the ECMAScript
`parseInt` digit alphabet (`0-9`, `a-z`, `A-Z`), or `none` when the
character is not a digit below the radix. -/
def digitVal (radix : Nat) (c : Char) : Option Nat :=
  let n := c.toNat
  if 48 ≤ n ∧ n ≤ 57 then
    if n - 48 < radix then some (n - 48) else none
  else if 97 ≤ n ∧ n ≤ 122 then
    if n - 97 + 10 < radix then some (n - 87) else none
  else if 65 ≤ n ∧ n ≤ 90 then
    if n - 65 + 10 < radix then some (n - 55) else none
  else none

/-- Whitespace stripped by `parseInt` (space, tab, LF, VT, FF, CR). -/
def isJsWs (c : Char) : Bool :=
  c.toNat = 32 || c.toNat = 9 || c.toNat = 10 ||
  c.toNat = 11 || c.toNat = 12 || c.toNat = 13

/-- Whether the (sign-stripped) input starts with `0x`/`0X`, switching
`parseInt` to hexadecimal. -/
def jsHexB (cs : List Char) : Bool :=
  decide (cs.head? = some '0' ∧ (cs.tail.head? = some 'x' ∨ cs.tail.head? = some 'X'))

/-- ECMAScript `parseInt(string)` with the radix argument omitted, as the
source calls it on the raw `count` value. -/
def jsParseInt (s : String) : JSNum :=
  let cs := s.toList.dropWhile isJsWs
  let sign : Int := if cs.head? = some '-' then -1 else 1
  let cs1 := if cs.head? = some '-' ∨ cs.head? = some '+' then cs.tail else cs
  let radix : Nat := if jsHexB cs1 then 16 else 10
  let cs2 := if jsHexB cs1 then cs1.tail.tail else cs1
  let ds := cs2.takeWhile (fun c => (digitVal radix c).isSome)
  if ds.isEmpty then JSNum.nan
  else JSNum.int (sign * Int.ofNat (ds.foldl (fun a c => radix * a + (digitVal radix c).getD 0) 0))

/-- Split a character list on a separator character, keeping empty pieces
(the splitting performed by `URLSearchParams` on `&`). -/
def splitOnChar (sep : Char) : List Char → List (List Char)
  | [] => [[]]
  | c :: rest =>
    let r := splitOnChar sep rest
    if c = sep then [] :: r
    else
      match r with
      | [] => [[c]]
      | h :: t => (c :: h) :: t

/-- Hexadecimal value of a character, for percent-decoding. -/
def hexVal (c : Char) : Option Nat :=
  let n := c.toNat
  if 48 ≤ n ∧ n ≤ 57 then some (n - 48)
  else if 97 ≤ n ∧ n ≤ 102 then some (n - 87)
  else if 65 ≤ n ∧ n ≤ 70 then some (n - 55)
  else none

/-- Percent-decoding of `%XX` escapes; malformed escapes are kept
verbatim, as `URLSearchParams` does.  The fuel argument makes the
recursion structural; `percentDecode` supplies enough fuel for the whole
list, so the fuel never runs out. -/
def percentDecodeAux : Nat → List Char → List Char
  | 0, l => l
  | _ + 1, [] => []
  | fuel + 1, c :: rest =>
    if c = '%' then
      match rest with
      | a :: b :: rest2 =>
        match hexVal a, hexVal b with
        | some ha, some hb => Char.ofNat (16 * ha + hb) :: percentDecodeAux fuel rest2
        | _, _ => c :: percentDecodeAux fuel rest
      | _ => c :: percentDecodeAux fuel rest
    else c :: percentDecodeAux fuel rest

/-- Percent-decoding of a whole component. -/
def percentDecode (l : List Char) : List Char :=
  percentDecodeAux l.length l

/-- `application/x-www-form-urlencoded` decoding of one component:
`+` becomes a space, then percent-escapes are decoded. -/
def formDecode (cs : List Char) : String :=
  String.mk (percentDecode (cs.map fun c => if c = '+' then ' ' else c))

/-- `new URLSearchParams(url.search)`: strip a leading `?`, split on `&`,
skip empty pieces, split each piece at its first `=` and decode name and
value. -/
def parseSearch (search : String) : List (String × String) :=
  let cs := search.toList
  let cs1 := match cs with
    | '?' :: r => r
    | _ => cs
  (splitOnChar '&' cs1).filterMap fun piece =>
    if piece.isEmpty then none
    else
      let name := piece.takeWhile (fun c => c ≠ '=')
      let value := (piece.dropWhile (fun c => c ≠ '=')).drop 1
      some (formDecode name, formDecode value)

/-- `searchParams.get(key)`: the first value listed for the key, or `none`
when the key is absent. -/
def spGet (params : List (String × String)) (key : String) : Option String :=
  (params.find? fun p => p.1 = key).map fun p => p.2

/-- The normalized parameters the loader computes and later echoes in the
response body under `searchParams` (field names as in the source; the
spec calls this record `QueryParameters` with `query` named `searchText`
and `count` named `pageSize`). -/
structure QueryParameters where
  query : String
  sortKey : String
  reverse : Bool
  count : JSNum
deriving DecidableEq, Repr

/-- Lines 19-41 of the source: defaults, the `reverse === 'true'` test and
the `parseInt` of `count` (applied exactly when the key is present, since
`searchParams.get` returns a string precisely then). -/
def queryParams (params : List (String × String)) : QueryParameters :=
  let query := (spGet params "query").getD ""
  let sortKey := (spGet params "sortKey").getD "BEST_SELLING"
  let reverse := decide (spGet params "reverse" = some "true")
  let count := match spGet params "count" with
    | some s => jsParseInt s
    | none => JSNum.int 12
  ⟨query, sortKey, reverse, count⟩

/-- The variables object passed to `storefront.query`. -/
structure StorefrontVars where
  count : JSNum
  query : String
  reverse : Bool
  sortKey : String
  country : String
  language : String
deriving DecidableEq, Repr

/-- The variables the loader sends for a given raw query and locale. -/
def loaderVars (params : List (String × String)) (country language : String) :
    StorefrontVars :=
  let p := queryParams params
  ⟨p.count, p.query, p.reverse, p.sortKey, country, language⟩

/-- The `products` connection returned by the storefront API. -/
structure ProductConnection (P : Type) where
  nodes : List P
deriving DecidableEq

/-- `flattenConnection` on a `nodes`-style connection. -/
def flattenConnection {P : Type} (c : ProductConnection P) : List P :=
  c.nodes

/-- Outcome of one loader invocation: the JSON body
`{products, searchParams}` on success, or the `invariant` failure. -/
inductive LoaderResult (P : Type) where
  | ok (products : List P) (searchParams : QueryParameters)
  | invariantError (msg : String)
deriving DecidableEq

/-- One loader invocation: normalize the parameters, issue the single
storefront query, fail through `invariant` when the connection is
missing, otherwise return the flattened products together with the echoed
parameters.  The first component records every outbound call made. -/
def loaderRun {P : Type} (params : List (String × String)) (country language : String)
    (storefrontQuery : StorefrontVars → Option (ProductConnection P)) :
    List StorefrontVars × LoaderResult P :=
  let p := queryParams params
  let vars := loaderVars params country language
  match storefrontQuery vars with
  | none => ([vars], LoaderResult.invariantError "No data returned from top products query")
  | some conn => ([vars], LoaderResult.ok (flattenConnection conn) p)

/-- A decimal digit character (code points 48-57). -/
def isDecDigit (c : Char) : Bool := decide (48 ≤ c.toNat ∧ c.toNat ≤ 57)

/-- Value of a run of decimal digits, most significant digit first. -/
def decimalVal (ds : List Char) : Nat :=
  ds.foldl (fun a c => 10 * a + (c.toNat - 48)) 0

/-- Helper: `takeWhile` keeps exactly the first list of an append when
all its elements satisfy the predicate and the head of the second list
does not. -/
theorem takeWhile_append_all (p : Char → Bool) (l1 l2 : List Char)
    (h1 : ∀ c ∈ l1, p c = true)
    (h2 : ∀ c, l2.head? = some c → p c = false) :
    (l1 ++ l2).takeWhile p = l1 := by
  induction l1 with
  | nil =>
    cases l2 with
    | nil => rfl
    | cons c t =>
      simp only [List.nil_append]
      exact List.takeWhile_cons_of_neg (by simp [h2 c rfl])
  | cons c t ih =>
    simp only [List.cons_append]
    rw [List.takeWhile_cons_of_pos (h1 c (List.mem_cons_self c t))]
    rw [ih (fun x hx => h1 x (List.mem_cons_of_mem c hx))]

/-- Helper: for radix 10 the `parseInt` digit alphabet is exactly the
decimal digits. -/
theorem digitVal_ten_isSome (c : Char) :
    (digitVal 10 c).isSome = isDecDigit c := by
  unfold digitVal isDecDigit
  by_cases h1 : 48 ≤ c.toNat ∧ c.toNat ≤ 57
  · have h : c.toNat - 48 < 10 := by omega
    simp [h1, h]
  · by_cases h2 : 97 ≤ c.toNat ∧ c.toNat ≤ 122
    · have h : ¬(c.toNat - 97 + 10 < 10) := by omega
      simp [h1, h2, h]
    · by_cases h3 : 65 ≤ c.toNat ∧ c.toNat ≤ 90
      · have h : ¬(c.toNat - 65 + 10 < 10) := by omega
        simp [h1, h2, h3, h]
      · simp [h1, h2, h3]

/-- Helper: decimal digits are not `parseInt` whitespace. -/
theorem isJsWs_of_digit (c : Char) (h : 48 ≤ c.toNat ∧ c.toNat ≤ 57) :
    isJsWs c = false := by
  unfold isJsWs
  simp only [Bool.or_eq_false_iff, decide_eq_false_iff_not]
  omega

/-- Helper: on a run of decimal digits, the `parseInt` accumulator
computes the plain decimal value. -/
theorem foldl_digitVal_eq (ds : List Char) (h : ∀ c ∈ ds, isDecDigit c = true) :
    ∀ a : Nat, ds.foldl (fun a c => 10 * a + (digitVal 10 c).getD 0) a =
      ds.foldl (fun a c => 10 * a + (c.toNat - 48)) a := by
  induction ds with
  | nil => intro a; rfl
  | cons c t ih =>
    intro a
    have hc : 48 ≤ c.toNat ∧ c.toNat ≤ 57 := by
      have := h c (List.mem_cons_self c t)
      simpa [isDecDigit] using this
    have hv : digitVal 10 c = some (c.toNat - 48) := by
      unfold digitVal
      have h10 : c.toNat - 48 < 10 := by omega
      simp [hc, h10]
    simp only [List.foldl_cons, hv, Option.getD_some]
    exact ih (fun x hx => h x (List.mem_cons_of_mem c hx)) _

/-- Helper: `parseInt` on a string that is a nonempty run of decimal
digits followed by characters that do not extend the run yields the
decimal value of the run — unless the run is exactly `"0"` and is
followed by `x`/`X`, which switches `parseInt` to hexadecimal. -/
theorem jsParseInt_leadingDigits (s : String) (ds rest : List Char)
    (hs : s.toList = ds ++ rest)
    (hne : ds ≠ []) (hdig : ∀ c ∈ ds, isDecDigit c = true)
    (hrest : ∀ c, rest.head? = some c → isDecDigit c = false)
    (hhex : ¬(ds = ['0'] ∧ (rest.head? = some 'x' ∨ rest.head? = some 'X'))) :
    jsParseInt s = JSNum.int (Int.ofNat (decimalVal ds)) := by
  obtain ⟨d, t, rfl⟩ : ∃ d t, ds = d :: t := by
    cases ds with
    | nil => exact absurd rfl hne
    | cons d t => exact ⟨d, t, rfl⟩
  have hd : 48 ≤ d.toNat ∧ d.toNat ≤ 57 := by
    have := hdig d (List.mem_cons_self d t)
    simpa [isDecDigit] using this
  have hm : ¬d = '-' := fun h => absurd hd (by subst h; decide)
  have hp : ¬d = '+' := fun h => absurd hd (by subst h; decide)
  have htl : s.toList = d :: (t ++ rest) := hs
  have hcs : s.toList.dropWhile isJsWs = d :: (t ++ rest) := by
    rw [htl]
    exact List.dropWhile_cons_of_neg (by simp [isJsWs_of_digit d hd])
  have htw : (d :: (t ++ rest)).takeWhile (fun c => (digitVal 10 c).isSome) = d :: t := by
    have := takeWhile_append_all (fun c => (digitVal 10 c).isSome) (d :: t) rest
      (fun c hc => show (digitVal 10 c).isSome = true by
        rw [digitVal_ten_isSome]; exact hdig c hc)
      (fun c hc => show (digitVal 10 c).isSome = false by
        rw [digitVal_ten_isSome]; exact hrest c hc)
    simpa using this
  have hnm : ¬((d :: (t ++ rest)).head? = some '-') := by
    rw [List.head?_cons]
    intro h
    exact hm (Option.some.inj h)
  have hnp : ¬((d :: (t ++ rest)).head? = some '-' ∨
      (d :: (t ++ rest)).head? = some '+') := by
    rintro (h | h) <;> rw [List.head?_cons] at h
    · exact hm (Option.some.inj h)
    · exact hp (Option.some.inj h)
  have hhexb : jsHexB (d :: (t ++ rest)) = false := by
    apply decide_eq_false
    rintro ⟨h0, hx⟩
    rw [List.head?_cons] at h0
    have hd0 : d = '0' := Option.some.inj h0
    rw [List.tail_cons] at hx
    cases t with
    | nil =>
      rw [List.nil_append] at hx
      exact hhex ⟨by rw [hd0], hx⟩
    | cons c t2 =>
      have hc : 48 ≤ c.toNat ∧ c.toNat ≤ 57 := by
        have := hdig c (List.mem_cons_of_mem _ (List.mem_cons_self c t2))
        simpa [isDecDigit] using this
      rw [List.cons_append, List.head?_cons] at hx
      rcases hx with hx | hx <;> (have hxc := Option.some.inj hx) <;> subst hxc <;>
        exact absurd hc (by decide)
  simp only [jsParseInt]
  rw [hcs, if_neg hnm, if_neg hnp, hhexb,
    if_neg (by decide : ¬(false = true)), if_neg (by decide : ¬(false = true)),
    htw, List.isEmpty_cons, if_neg (by decide : ¬(false = true)),
    foldl_digitVal_eq (d :: t) hdig 0, one_mul]
  rfl

/-- C1, counterexample: with `count` present but equal to `"abc"`, the
code computes `parseInt("abc") = NaN`, not the default `12`: the claim
that a present-but-invalid `count` yields a pageSize of `12` is false. -/
theorem C1_counterexample :
    spGet [("count", "abc")] "count" = some "abc" ∧
    (queryParams [("count", "abc")]).count = JSNum.nan ∧
    (queryParams [("count", "abc")]).count ≠ JSNum.int 12 := by
  decide

/-- C1 (amended): when the key `count` is absent the pageSize is `12`;
when it is present with raw value `s` the pageSize is `parseInt(s)`,
which is `NaN` (not `12`) for strings with no parseable prefix such as
`""` or `"abc"`, and the parsed integer for valid integer strings such
as `"24"`. -/
theorem C1_pageSize (params : List (String × String)) :
    (spGet params "count" = none → (queryParams params).count = JSNum.int 12) ∧
    (∀ s, spGet params "count" = some s → (queryParams params).count = jsParseInt s) ∧
    jsParseInt "" = JSNum.nan ∧ jsParseInt "abc" = JSNum.nan ∧
    jsParseInt "24" = JSNum.int 24 := by
  refine ⟨fun h => ?_, fun s h => ?_, by decide, by decide, by decide⟩ <;>
    simp [queryParams, h]

/-- C1 witness: the amended claim instantiated at `count = "24"` and at a
mapping without `count`. -/
theorem C1_pageSize_witness :
    (queryParams []).count = JSNum.int 12 ∧
    (queryParams [("count", "24")]).count = jsParseInt "24" :=
  ⟨(C1_pageSize []).1 rfl, (C1_pageSize [("count", "24")]).2.1 "24" rfl⟩

/-- C2: the loader's result is the `invariant` failure (message
`"No data returned from top products query"`) exactly when the
storefront query returns no `products` connection; when a connection is
returned (even with an empty node list) the loader returns the listing
response, so the `invariant` failure is the only failure the module
raises. -/
theorem C2_invariantError {P : Type} (params : List (String × String))
    (country language : String)
    (sq : StorefrontVars → Option (ProductConnection P)) :
    ((∃ msg, (loaderRun params country language sq).2 = LoaderResult.invariantError msg) ↔
       sq (loaderVars params country language) = none) ∧
    (sq (loaderVars params country language) = none →
       (loaderRun params country language sq).2 =
         LoaderResult.invariantError "No data returned from top products query") ∧
    (∀ conn, sq (loaderVars params country language) = some conn →
       (loaderRun params country language sq).2 =
         LoaderResult.ok (flattenConnection conn) (queryParams params)) := by
  cases hq : sq (loaderVars params country language) <;> simp [loaderRun, hq]

/-- C2 witness: both branches at concrete inputs — a `none` connection
produces the invariant failure, a present connection produces the
listing. -/
theorem C2_invariantError_witness :
    (loaderRun [] "US" "EN" (fun _ => (none : Option (ProductConnection Nat)))).2 =
      LoaderResult.invariantError "No data returned from top products query" ∧
    (loaderRun [] "US" "EN" (fun _ => some (⟨[0]⟩ : ProductConnection Nat))).2 =
      LoaderResult.ok [0] (queryParams []) :=
  ⟨(C2_invariantError [] "US" "EN" _).2.1 rfl,
   (C2_invariantError [] "US" "EN" _).2.2 ⟨[0]⟩ rfl⟩

/-- C3: when none of the keys `query`, `sortKey`, `reverse`, `count` is
present, normalization returns exactly the defaults
`{query = "", sortKey = "BEST_SELLING", reverse = false, count = 12}`. -/
theorem C3_defaults (params : List (String × String))
    (hq : spGet params "query" = none) (hs : spGet params "sortKey" = none)
    (hr : spGet params "reverse" = none) (hc : spGet params "count" = none) :
    queryParams params = ⟨"", "BEST_SELLING", false, JSNum.int 12⟩ := by
  simp [queryParams, hq, hs, hr, hc]

/-- C3 witness: the empty mapping. -/
theorem C3_defaults_witness :
    queryParams [] = ⟨"", "BEST_SELLING", false, JSNum.int 12⟩ :=
  C3_defaults [] rfl rfl rfl rfl

/-- C4: the computed reverse flag is `true` iff the raw `reverse` value
is exactly the string `"true"`; `"1"`, `"True"`, `""` and an absent key
all yield `false`. -/
theorem C4_reverse (params : List (String × String)) :
    ((queryParams params).reverse = true ↔ spGet params "reverse" = some "true") ∧
    (queryParams [("reverse", "1")]).reverse = false ∧
    (queryParams [("reverse", "True")]).reverse = false ∧
    (queryParams [("reverse", "")]).reverse = false ∧
    (queryParams []).reverse = false := by
  refine ⟨?_, by decide, by decide, by decide, by decide⟩
  simp [queryParams]

/-- C5: a present `sortKey` value is forwarded to the storefront
variables unchanged, with no validation against the sort-key enum. -/
theorem C5_sortKey_passthrough (params : List (String × String))
    (country language : String) (s : String)
    (h : spGet params "sortKey" = some s) :
    (loaderVars params country language).sortKey = s ∧
    (queryParams params).sortKey = s := by
  have hq : (queryParams params).sortKey = s := by simp [queryParams, h]
  exact ⟨by simp [loaderVars, hq], hq⟩

/-- C5 witness: the non-enum value `"FOO"` is forwarded as `"FOO"`. -/
theorem C5_sortKey_passthrough_witness :
    (loaderVars [("sortKey", "FOO")] "US" "EN").sortKey = "FOO" ∧
    (queryParams [("sortKey", "FOO")]).sortKey = "FOO" :=
  C5_sortKey_passthrough [("sortKey", "FOO")] "US" "EN" "FOO" (by decide)

/-- C6, counterexample: parsing failures for `count` are not absorbed
into the default — with `count` present but empty, `parseInt("")` is
`NaN` and the normalized pageSize is `NaN`, not `12`. -/
theorem C6_counterexample :
    spGet [("count", "")] "count" = some "" ∧
    jsParseInt "" = JSNum.nan ∧
    (queryParams [("count", "")]).count = JSNum.nan ∧
    (queryParams [("count", "")]).count ≠ JSNum.int 12 := by
  decide

/-- C6 (amended): normalization is total (it is a Lean function, so it
never raises and always yields a fully populated record); a malformed
`reverse` is absorbed into `false` and an absent `count` into the
default `12`, but a present `count` whose parse fails yields `NaN`
rather than the default: the pageSize is `NaN` exactly when `count` is
present and `parseInt` fails on it. -/
theorem C6_total (params : List (String × String)) :
    (spGet params "reverse" ≠ some "true" → (queryParams params).reverse = false) ∧
    (spGet params "count" = none → (queryParams params).count = JSNum.int 12) ∧
    ((queryParams params).count = JSNum.nan ↔
      ∃ s, spGet params "count" = some s ∧ jsParseInt s = JSNum.nan) := by
  refine ⟨fun h => ?_, fun h => ?_, ?_⟩
  · simp [queryParams, h]
  · simp [queryParams, h]
  · cases hc : spGet params "count" with
    | none => simp [queryParams, hc]
    | some s => simp [queryParams, hc]

/-- C6 witness: the amended claim instantiated at the empty mapping. -/
theorem C6_total_witness :
    (queryParams []).reverse = false ∧ (queryParams []).count = JSNum.int 12 :=
  ⟨(C6_total []).1 (by decide), (C6_total []).2.1 rfl⟩

/-- C7: for the query string `?query=shoes&count=8&sortKey=PRICE&reverse=true`
the loader issues the storefront query with variables
`{count = 8, query = "shoes", reverse = true, sortKey = "PRICE"}` plus the
ambient locale, and (when a connection is returned) responds with a body
whose `searchParams` echoes exactly those four values. -/
theorem C7_scenario {P : Type} (country language : String)
    (sq : StorefrontVars → Option (ProductConnection P)) (conn : ProductConnection P)
    (h : sq ⟨JSNum.int 8, "shoes", true, "PRICE", country, language⟩ = some conn) :
    loaderRun (parseSearch "?query=shoes&count=8&sortKey=PRICE&reverse=true")
        country language sq =
      ([⟨JSNum.int 8, "shoes", true, "PRICE", country, language⟩],
        LoaderResult.ok conn.nodes ⟨"shoes", "PRICE", true, JSNum.int 8⟩) := by
  have hps : parseSearch "?query=shoes&count=8&sortKey=PRICE&reverse=true" =
      [("query", "shoes"), ("count", "8"), ("sortKey", "PRICE"), ("reverse", "true")] := by
    decide
  have hqp : queryParams [("query", "shoes"), ("count", "8"), ("sortKey", "PRICE"),
      ("reverse", "true")] = ⟨"shoes", "PRICE", true, JSNum.int 8⟩ := by decide
  have hlv : loaderVars [("query", "shoes"), ("count", "8"), ("sortKey", "PRICE"),
      ("reverse", "true")] country language =
      ⟨JSNum.int 8, "shoes", true, "PRICE", country, language⟩ := by
    simp [loaderVars, hqp]
  rw [hps]
  simp [loaderRun, hlv, hqp, h, flattenConnection]

/-- C7 witness: the scenario instantiated with a concrete responder. -/
theorem C7_scenario_witness :
    loaderRun (parseSearch "?query=shoes&count=8&sortKey=PRICE&reverse=true")
        "US" "EN" (fun _ => some (⟨[0]⟩ : ProductConnection Nat)) =
      ([⟨JSNum.int 8, "shoes", true, "PRICE", "US", "EN"⟩],
        LoaderResult.ok [0] ⟨"shoes", "PRICE", true, JSNum.int 8⟩) :=
  C7_scenario "US" "EN" _ ⟨[0]⟩ rfl

/-- C8: one loader invocation issues exactly one storefront query — the
call trace is the one-element list holding the variables computed from
the raw parameters and locale — and the loader's entire output is
determined by the response to that single call (the call is awaited
before any output is produced). -/
theorem C8_singleFetch {P : Type} (params : List (String × String))
    (country language : String)
    (sq sq2 : StorefrontVars → Option (ProductConnection P)) :
    (loaderRun params country language sq).1 = [loaderVars params country language] ∧
    (sq2 (loaderVars params country language) = sq (loaderVars params country language) →
      loaderRun params country language sq2 = loaderRun params country language sq) := by
  constructor
  · cases hq : sq (loaderVars params country language) <;> simp [loaderRun, hq]
  · intro h
    simp [loaderRun, h]

/-- C8 witness: instantiation at a concrete request and responder. -/
theorem C8_singleFetch_witness :
    (loaderRun [] "US" "EN" (fun _ => some (⟨[]⟩ : ProductConnection Nat))).1 =
      [loaderVars [] "US" "EN"] ∧
    loaderRun [] "US" "EN" (fun _ => some (⟨[]⟩ : ProductConnection Nat)) =
      loaderRun [] "US" "EN" (fun _ => some (⟨[]⟩ : ProductConnection Nat)) :=
  ⟨(C8_singleFetch [] "US" "EN" (fun _ => some ⟨[]⟩) (fun _ => some ⟨[]⟩)).1,
   (C8_singleFetch [] "US" "EN" (fun _ => some ⟨[]⟩) (fun _ => some ⟨[]⟩)).2 rfl⟩

/-- C9, counterexample: `"0xg"` begins with the decimal-integer prefix
`"0"` followed by non-numeric characters, yet `parseInt("0xg")` is `NaN`
(the `0x` start switches `parseInt` to hexadecimal and no hex digits
follow), so the pageSize is `NaN`, not the prefix value `0`. -/
theorem C9_counterexample :
    spGet [("count", "0xg")] "count" = some "0xg" ∧
    (queryParams [("count", "0xg")]).count = JSNum.nan ∧
    (queryParams [("count", "0xg")]).count ≠ JSNum.int 0 := by
  decide

/-- C9 (amended): for every raw `count` value consisting of a nonempty
run of decimal digits followed by characters that do not extend the run,
the pageSize is the decimal value of that run (`"24px"` gives `24`,
`"8.9"` gives `8`) — except when the digit run is exactly `"0"` followed
by `x`/`X`, where `parseInt` switches to hexadecimal parsing. -/
theorem C9_prefixParse (params : List (String × String)) (s : String)
    (ds rest : List Char) (hs : s.toList = ds ++ rest)
    (hne : ds ≠ []) (hdig : ∀ c ∈ ds, isDecDigit c = true)
    (hrest : ∀ c, rest.head? = some c → isDecDigit c = false)
    (hhex : ¬(ds = ['0'] ∧ (rest.head? = some 'x' ∨ rest.head? = some 'X')))
    (h : spGet params "count" = some s) :
    (queryParams params).count = JSNum.int (Int.ofNat (decimalVal ds)) ∧
    jsParseInt "24px" = JSNum.int 24 ∧ jsParseInt "8.9" = JSNum.int 8 := by
  refine ⟨?_, by decide, by decide⟩
  have hv := jsParseInt_leadingDigits s ds rest hs hne hdig hrest hhex
  simp [queryParams, h, hv]

/-- C9 witness: `count = "24px"` yields pageSize `24`. -/
theorem C9_prefixParse_witness :
    (queryParams [("count", "24px")]).count =
      JSNum.int (Int.ofNat (decimalVal ['2', '4'])) ∧
    jsParseInt "24px" = JSNum.int 24 ∧ jsParseInt "8.9" = JSNum.int 8 :=
  C9_prefixParse [("count", "24px")] "24px" ['2', '4'] ['p', 'x'] (by decide)
    (by decide) (by decide)
    (fun c hc => by
      simp only [List.head?_cons, Option.some.injEq] at hc
      subst hc
      decide)
    (by decide) rfl

/-- C10: whenever the loader succeeds, the four values echoed in the
response's `searchParams` (`query`, `sortKey`, `reverse`, `count`) are
identical to the corresponding variables of the single outbound
storefront query. -/
theorem C10_echoMatchesQuery {P : Type} (params : List (String × String))
    (country language : String)
    (sq : StorefrontVars → Option (ProductConnection P))
    (products : List P) (sp : QueryParameters)
    (h : (loaderRun params country language sq).2 = LoaderResult.ok products sp) :
    (loaderRun params country language sq).1 = [loaderVars params country language] ∧
    (loaderVars params country language).query = sp.query ∧
    (loaderVars params country language).sortKey = sp.sortKey ∧
    (loaderVars params country language).reverse = sp.reverse ∧
    (loaderVars params country language).count = sp.count := by
  cases hq : sq (loaderVars params country language) with
  | none => simp [loaderRun, hq] at h
  | some conn =>
    simp only [loaderRun, hq] at h
    simp only [LoaderResult.ok.injEq] at h
    obtain ⟨-, hsp⟩ := h
    subst hsp
    refine ⟨by simp [loaderRun, hq], ?_, ?_, ?_, ?_⟩ <;> simp [loaderVars]

/-- C10 witness: instantiation at a concrete request and responder. -/
theorem C10_echoMatchesQuery_witness :
    (loaderRun [] "US" "EN" (fun _ => some (⟨[true]⟩ : ProductConnection Bool))).1 =
      [loaderVars [] "US" "EN"] ∧
    (loaderVars [] "US" "EN").query = (queryParams []).query ∧
    (loaderVars [] "US" "EN").sortKey = (queryParams []).sortKey ∧
    (loaderVars [] "US" "EN").reverse = (queryParams []).reverse ∧
    (loaderVars [] "US" "EN").count = (queryParams []).count :=
  C10_echoMatchesQuery [] "US" "EN" (fun _ => some ⟨[true]⟩) [true] (queryParams []) rfl
